import Mathlib

/-!
# Verification of `ping_sweep.py`

A shallow embedding of the ping-sweep program: OS-specific ping command
construction (`get_ping_command`), single-probe invocation (`ping_once`),
host enumeration of a CIDR network (`hostsOf`, modelling
`ipaddress.ip_network(...).hosts()` from the Python standard library), the
parallel sweep loop (`sweep_network`, with the nondeterministic completion
order of the futures made an explicit parameter), and the summary counting
in `main`.

Machine-level details modelled explicitly:
* IPv4 addresses are natural numbers below 2^32; `str(ip)` is `ipToString`.
* The future completion order produced by `concurrent.futures.as_completed`
  is an arbitrary permutation of the submitted hosts; theorems quantify
  over it.
* The external `ping` binary is a parameter `run : List String → RunOutcome`
  mapping an argument vector to either an exit status or a
  file-not-found failure (`subprocess.run` raising `FileNotFoundError`).
-/

namespace PingSweep

/-- `str(ip)` for an IPv4 address held as an integer: dotted decimal
notation of the four octets (CPython `IPv4Address.__str__`). -/
def ipToString (n : Nat) : String :=
  toString (n / 16777216 % 256) ++ "." ++ toString (n / 65536 % 256) ++ "." ++
    toString (n / 256 % 256) ++ "." ++ toString (n % 256)

/-- The result of `platform.system()`, deciding which ping flavour is built. -/
inductive OS where
  | windows
  | unixLike
  deriving DecidableEq

/-- The timeout value embedded in the ping command: milliseconds verbatim on
Windows (`-w`), `max(1, (timeout_ms + 999) // 1000)` seconds on Unix-like
systems (`-W`).  Python `//` is floor division, i.e. `Int.fdiv`. -/
def timeoutValue (system : OS) (timeout_ms : Int) : Int :=
  match system with
  | .windows => timeout_ms
  | .unixLike => max 1 ((timeout_ms + 999).fdiv 1000)

/-- `get_ping_command(ip, timeout_ms)`: the OS-appropriate argument vector
for one ping (`-n 1` / `-c 1` sends a single echo). -/
def get_ping_command (system : OS) (ip : String) (timeout_ms : Int) : List String :=
  match system with
  | .windows => ["ping", "-n", "1", "-w", toString timeout_ms, ip]
  | .unixLike => ["ping", "-c", "1", "-W", toString (max 1 ((timeout_ms + 999).fdiv 1000)), ip]

/-- What one invocation of the external `ping` binary produces:
the process ran and exited with some status, or the binary was missing
(`subprocess.run` raised `FileNotFoundError`). -/
inductive RunOutcome where
  | exited (returncode : Int)
  | fileNotFound
  deriving DecidableEq

/-- `ping_once(ip, timeout_ms)`: builds the command, invokes the external
binary once, returns `True` exactly when the exit status is 0; a missing
binary becomes a raised `RuntimeError` (the `Except.error` branch).  The
second component is the trace of external invocations made by the call —
the body contains exactly one `subprocess.run`. -/
def ping_once (run : List String → RunOutcome) (system : OS) (ip : String)
    (timeout_ms : Int) : Except String Bool × List (List String) :=
  let cmd := get_ping_command system ip timeout_ms
  match run cmd with
  | .exited rc => (.ok (rc == 0), [cmd])
  | .fileNotFound => (.error "ping command not found on this system", [cmd])

/-- A parsed IPv4 network as produced by `ipaddress.ip_network(..., strict=False)`:
a 32-bit base address and a prefix length at most 32. -/
structure Network where
  addr : Nat
  plen : Nat
  addr_lt : addr < 4294967296
  plen_le : plen ≤ 32

/-- Number of addresses in the network: `2 ^ (32 - plen)`. -/
def Network.size (n : Network) : Nat := 2 ^ (32 - n.plen)

/-- `int(net.network_address)`: the base address with host bits cleared. -/
def network_address (n : Network) : Nat := n.addr - n.addr % n.size

/-- `int(net.broadcast_address)`: the base address with host bits set. -/
def broadcast_address (n : Network) : Nat := network_address n + n.size - 1

/-- `net.hosts()` (CPython `IPv4Network.hosts`): all addresses strictly
between network and broadcast address, except that a /32 yields the single
address and a /31 yields both of its addresses. -/
def hostsOf (n : Network) : List Nat :=
  if n.plen = 32 then [network_address n]
  else if n.plen = 31 then [network_address n, broadcast_address n]
  else List.range' (network_address n + 1) (broadcast_address n - (network_address n + 1))

/-- `hosts = [str(ip) for ip in net.hosts()]` in `sweep_network`. -/
def hostStrings (n : Network) : List String := (hostsOf n).map ipToString

/-- The body of the `as_completed` loop for one completed future: the
`(ip, up)` pair appended to `results`, where any exception raised by the
probe (`except Exception`) is recorded as `up = False`. -/
def recordOf (prober : String → Except String Bool) (ip : String) : String × Bool :=
  (ip, match prober ip with
       | Except.ok up => up
       | Except.error _ => false)

/-- `sweep_network`: every host is submitted to the pool exactly once
(`future_to_ip` holds one future per host) and the loop records one pair
per future, in completion order; `order` is that completion order, an
arbitrary permutation of the submitted hosts. -/
def sweep_network (prober : String → Except String Bool) (order : List String) :
    List (String × Bool) :=
  order.map (recordOf prober)

/-- The prober that `sweep_network` actually submits: `ping_once` over the
external binary `run`, its `Except` value being what `future.result()`
returns or raises. -/
def prober_of (run : List String → RunOutcome) (system : OS) (timeout_ms : Int)
    (ip : String) : Except String Bool :=
  (ping_once run system ip timeout_ms).1

/-- `main`: `up_count = sum(1 for _, up in results if up)`. -/
def up_count (results : List (String × Bool)) : Nat :=
  (results.filter fun r => r.2).length

/-- Hosts the sweep recorded as down: the records with `up = False`
(the code folds probe errors into this class, logging them separately). -/
def down_count (results : List (String × Bool)) : Nat :=
  (results.filter fun r => !r.2).length

/-- Hosts recorded with a distinct error outcome in the final result list:
none — `sweep_network` records an errored probe as `(ip, False)`, so the
final results carry no separate error class. -/
def error_count (_ : List (String × Bool)) : Nat := 0

/-- `main`: `total = len(results)`. -/
def total_count (results : List (String × Bool)) : Nat := results.length

/-- `max(1, args.threads)` / `max(1, args.timeout)` in `main`. -/
def clampPos (x : Int) : Int := max 1 x

/-- How `main` terminates: a completed sweep logging `up_count/total` and
exiting with success, or `sys.exit(1)` after a critical log (reachable only
from the `except RuntimeError` handler around `sweep_network`). -/
inductive MainOutcome where
  | completed (up : Nat) (total : Nat)
  | fatalExit (code : Nat)
  deriving DecidableEq

/-- `main`'s try/except around `sweep_network`: the per-future
`except Exception` inside `sweep_network` catches every exception raised by
a probe (including the `RuntimeError` for a missing ping binary, delivered
through `future.result()`), so for a valid network the sweep body itself
never raises `RuntimeError` and `main` always reaches the summary. -/
def main_run (prober : String → Except String Bool) (order : List String) : MainOutcome :=
  let results := sweep_network prober order
  .completed (up_count results) (total_count results)

/-- The network `10.0.0.0/30` (10.0.0.0 = 167772160). -/
def net1030 : Network := ⟨167772160, 30, by decide, by decide⟩

/-- The network `10.0.0.0/32`. -/
def net1032 : Network := ⟨167772160, 32, by decide, by decide⟩

example : hostStrings net1030 = ["10.0.0.1", "10.0.0.2"] := by decide
example : hostStrings net1032 = ["10.0.0.0"] := by decide

/-! ## Arithmetic facts about the network model -/

theorem Network.size_pos (n : Network) : 0 < n.size :=
  Nat.pos_pow_of_pos _ (by decide)

theorem Network.size_dvd (n : Network) : n.size ∣ 4294967296 := by
  have h : (4294967296 : Nat) = 2 ^ 32 := by decide
  rw [h]
  exact pow_dvd_pow 2 (Nat.sub_le 32 n.plen)

theorem network_address_eq (n : Network) :
    network_address n = n.size * (n.addr / n.size) := by
  have h := Nat.div_add_mod n.addr n.size
  unfold network_address
  omega

theorem broadcast_address_lt (n : Network) : broadcast_address n < 4294967296 := by
  obtain ⟨k, hk⟩ := n.size_dvd
  have hpos : 0 < n.size := n.size_pos
  have hq : network_address n = n.size * (n.addr / n.size) := network_address_eq n
  have h1 : n.addr / n.size * n.size ≤ n.addr := Nat.div_mul_le_self _ _
  have h2 : n.addr / n.size * n.size < k * n.size := by
    have hlt := n.addr_lt
    have hk' : (4294967296 : Nat) = k * n.size := by rw [hk, Nat.mul_comm]
    omega
  have h3 : n.addr / n.size < k := Nat.lt_of_mul_lt_mul_right h2
  have h4 : (n.addr / n.size + 1) * n.size ≤ k * n.size :=
    Nat.mul_le_mul_right _ h3
  unfold broadcast_address
  rw [hq]
  have h5 : n.size * (n.addr / n.size) + n.size ≤ 4294967296 := by
    rw [hk]
    calc n.size * (n.addr / n.size) + n.size = (n.addr / n.size + 1) * n.size := by ring
    _ ≤ k * n.size := h4
    _ = n.size * k := Nat.mul_comm _ _
  omega

theorem network_le_broadcast (n : Network) :
    network_address n ≤ broadcast_address n := by
  have := n.size_pos
  unfold broadcast_address
  omega

theorem hostsOf_lt (n : Network) : ∀ x ∈ hostsOf n, x < 4294967296 := by
  intro x hx
  have hb := broadcast_address_lt n
  have hnb := network_le_broadcast n
  unfold hostsOf at hx
  split at hx
  · simp only [List.mem_singleton] at hx
    omega
  · split at hx
    · simp only [List.mem_cons, List.not_mem_nil, or_false] at hx
      rcases hx with h | h <;> omega
    · rw [List.mem_range'_1] at hx
      obtain ⟨hx1, hx2⟩ := hx
      omega

theorem hostsOf_nodup (n : Network) : (hostsOf n).Nodup := by
  unfold hostsOf
  split
  · exact List.nodup_singleton _
  · split
    · next h32 h31 =>
      have hsize : n.size = 2 := by
        unfold Network.size
        rw [h31]
        decide
      have hne : network_address n ≠ broadcast_address n := by
        unfold broadcast_address
        omega
      simp [List.nodup_cons, hne]
    · exact List.nodup_range' _ _

/-! ## Injectivity of the dotted-decimal rendering

`str` on a Python `IPv4Address` is injective; the embedding proves the same
of `ipToString` on addresses below `2^32`, in two steps: the decimal text of
each octet determines the octet (checked by evaluation over all 256 octets),
and a dot-free prefix before a `'.'` separator is uniquely delimited. -/

/-- Reads a decimal digit string back into a number; only used as a left
inverse witnessing that octet rendering is injective. -/
def decOfChars (l : List Char) : Nat :=
  l.foldl (fun acc c => acc * 10 + (c.toNat - 48)) 0

set_option maxRecDepth 4000 in
theorem octet_round_trip : ∀ k : Fin 256, decOfChars (toString k.val).data = k.val := by
  decide

set_option maxRecDepth 4000 in
theorem octet_dot_free : ∀ k : Fin 256, '.' ∉ (toString k.val).data := by
  decide

theorem append_dot_cancel {a x : List Char} :
    ∀ {b : List Char}, '.' ∉ a → '.' ∉ b → ∀ {y : List Char},
      a ++ '.' :: x = b ++ '.' :: y → a = b ∧ x = y := by
  induction a with
  | nil =>
    intro b ha hb y h
    cases b with
    | nil => simpa using h
    | cons d b' =>
      simp only [List.nil_append, List.cons_append, List.cons.injEq] at h
      exact absurd (h.1 ▸ List.mem_cons_self d b') hb
  | cons c a' ih =>
    intro b ha hb y h
    cases b with
    | nil =>
      simp only [List.cons_append, List.nil_append, List.cons.injEq] at h
      exact absurd (h.1 ▸ List.mem_cons_self c a') ha
    | cons d b' =>
      simp only [List.cons_append, List.cons.injEq] at h
      have ha' : '.' ∉ a' := fun hm => ha (List.mem_cons_of_mem _ hm)
      have hb' : '.' ∉ b' := fun hm => hb (List.mem_cons_of_mem _ hm)
      obtain ⟨hab, hxy⟩ := ih ha' hb' h.2
      exact ⟨by rw [h.1, hab], hxy⟩

theorem ipToString_data (n : Nat) : (ipToString n).data =
    (toString (n / 16777216 % 256)).data ++ '.' ::
      ((toString (n / 65536 % 256)).data ++ '.' ::
        ((toString (n / 256 % 256)).data ++ '.' :: (toString (n % 256)).data)) := by
  simp [ipToString, String.data_append]

theorem octet_lt (n d : Nat) : n / d % 256 < 256 := Nat.mod_lt _ (by decide)

theorem ipToString_inj {m n : Nat} (hm : m < 4294967296) (hn : n < 4294967296)
    (h : ipToString m = ipToString n) : m = n := by
  have hd : (ipToString m).data = (ipToString n).data := by rw [h]
  rw [ipToString_data, ipToString_data] at hd
  have h0 := append_dot_cancel (octet_dot_free ⟨m / 16777216 % 256, octet_lt m _⟩)
    (octet_dot_free ⟨n / 16777216 % 256, octet_lt n _⟩) hd
  have h1 := append_dot_cancel (octet_dot_free ⟨m / 65536 % 256, octet_lt m _⟩)
    (octet_dot_free ⟨n / 65536 % 256, octet_lt n _⟩) h0.2
  have h2 := append_dot_cancel (octet_dot_free ⟨m / 256 % 256, octet_lt m _⟩)
    (octet_dot_free ⟨n / 256 % 256, octet_lt n _⟩) h1.2
  have e0 : m / 16777216 % 256 = n / 16777216 % 256 := by
    have := octet_round_trip ⟨m / 16777216 % 256, octet_lt m _⟩
    have := octet_round_trip ⟨n / 16777216 % 256, octet_lt n _⟩
    simp only at *
    rw [← ‹decOfChars (toString (m / 16777216 % 256)).data = m / 16777216 % 256›,
        ← ‹decOfChars (toString (n / 16777216 % 256)).data = n / 16777216 % 256›, h0.1]
  have e1 : m / 65536 % 256 = n / 65536 % 256 := by
    have := octet_round_trip ⟨m / 65536 % 256, octet_lt m _⟩
    have := octet_round_trip ⟨n / 65536 % 256, octet_lt n _⟩
    simp only at *
    rw [← ‹decOfChars (toString (m / 65536 % 256)).data = m / 65536 % 256›,
        ← ‹decOfChars (toString (n / 65536 % 256)).data = n / 65536 % 256›, h1.1]
  have e2 : m / 256 % 256 = n / 256 % 256 := by
    have := octet_round_trip ⟨m / 256 % 256, octet_lt m _⟩
    have := octet_round_trip ⟨n / 256 % 256, octet_lt n _⟩
    simp only at *
    rw [← ‹decOfChars (toString (m / 256 % 256)).data = m / 256 % 256›,
        ← ‹decOfChars (toString (n / 256 % 256)).data = n / 256 % 256›, h2.1]
  have e3 : m % 256 = n % 256 := by
    have := octet_round_trip ⟨m % 256, Nat.mod_lt _ (by decide)⟩
    have := octet_round_trip ⟨n % 256, Nat.mod_lt _ (by decide)⟩
    simp only at *
    rw [← ‹decOfChars (toString (m % 256)).data = m % 256›,
        ← ‹decOfChars (toString (n % 256)).data = n % 256›, h2.2]
  omega

theorem hostStrings_nodup (n : Network) : (hostStrings n).Nodup := by
  refine List.Nodup.map_on ?_ (hostsOf_nodup n)
  intro x hx y hy hxy
  exact ipToString_inj (hostsOf_lt n x hx) (hostsOf_lt n y hy) hxy

/-! ## General facts about the sweep loop -/

theorem sweep_fst (prober : String → Except String Bool) (order : List String) :
    (sweep_network prober order).map Prod.fst = order := by
  unfold sweep_network
  rw [List.map_map]
  have h : (Prod.fst ∘ recordOf prober) = id := funext fun ip => rfl
  rw [h, List.map_id]

theorem up_down_split (l : List (String × Bool)) :
    (l.filter fun r => r.2).length + (l.filter fun r => !r.2).length = l.length := by
  induction l with
  | nil => rfl
  | cons r l ih =>
    cases hr : r.2 <;> simp only [List.filter, hr, Bool.not_true, Bool.not_false,
      List.length_cons] <;> omega

/-! ## The claims -/

/-- C2: for every network with `k` usable host addresses, a completed sweep
(any completion order of the probes) returns exactly `k` (address, outcome)
pairs, each address of the network occurring exactly once — no address
probed twice, no address missing. -/
theorem C2_each_address_exactly_once (prober : String → Except String Bool)
    (net : Network) (order : List String) (h : order.Perm (hostStrings net)) :
    (sweep_network prober order).length = (hostStrings net).length ∧
    ((sweep_network prober order).map Prod.fst).Perm (hostStrings net) ∧
    ∀ a ∈ hostStrings net, ((sweep_network prober order).map Prod.fst).count a = 1 := by
  have hmap := sweep_fst prober order
  refine ⟨?_, ?_, ?_⟩
  · unfold sweep_network
    rw [List.length_map]
    exact h.length_eq
  · rw [hmap]
    exact h
  · intro a ha
    rw [hmap, h.count_eq]
    exact List.count_eq_one_of_mem (hostStrings_nodup net) ha

theorem C2_witness :
    (["10.0.0.2", "10.0.0.1"] : List String).Perm (hostStrings net1030) ∧
    (sweep_network (fun _ => Except.ok true) ["10.0.0.2", "10.0.0.1"]).length =
      (hostStrings net1030).length :=
  ⟨by decide,
   (C2_each_address_exactly_once (fun _ => Except.ok true) net1030
     ["10.0.0.2", "10.0.0.1"] (by decide)).1⟩

/-- C3: for every completed sweep, the derived counts partition the results:
`upCount + downCount + errorCount` equals the number of recorded pairs
(the code records an errored probe as a down record, so the final results
carry no separate error class and `errorCount` is 0). -/
theorem C3_counts_partition (prober : String → Except String Bool) (order : List String) :
    up_count (sweep_network prober order) + down_count (sweep_network prober order) +
      error_count (sweep_network prober order) = total_count (sweep_network prober order) := by
  unfold up_count down_count error_count total_count
  rw [Nat.add_zero]
  exact up_down_split _

/-- C9: sweeping the same network twice with a deterministic prober (a
fixed address-to-up/down mapping, no exceptions) yields identical
up/down/total counts in both runs, regardless of the completion order of
the probes. -/
theorem C9_counts_completion_order_independent (f : String → Bool) (net : Network)
    (order1 order2 : List String)
    (h1 : order1.Perm (hostStrings net)) (h2 : order2.Perm (hostStrings net)) :
    up_count (sweep_network (fun ip => Except.ok (f ip)) order1) =
      up_count (sweep_network (fun ip => Except.ok (f ip)) order2) ∧
    down_count (sweep_network (fun ip => Except.ok (f ip)) order1) =
      down_count (sweep_network (fun ip => Except.ok (f ip)) order2) ∧
    total_count (sweep_network (fun ip => Except.ok (f ip)) order1) =
      total_count (sweep_network (fun ip => Except.ok (f ip)) order2) := by
  have hp : order1.Perm order2 := h1.trans h2.symm
  have hmp : (sweep_network (fun ip => Except.ok (f ip)) order1).Perm
      (sweep_network (fun ip => Except.ok (f ip)) order2) := hp.map _
  exact ⟨((hmp.filter _).length_eq : _), ((hmp.filter _).length_eq : _),
    (hmp.length_eq : _)⟩

theorem C9_witness :
    (["10.0.0.1", "10.0.0.2"] : List String).Perm (hostStrings net1030) ∧
    (["10.0.0.2", "10.0.0.1"] : List String).Perm (hostStrings net1030) ∧
    up_count (sweep_network (fun ip => Except.ok (ip == "10.0.0.1"))
        ["10.0.0.1", "10.0.0.2"]) =
      up_count (sweep_network (fun ip => Except.ok (ip == "10.0.0.1"))
        ["10.0.0.2", "10.0.0.1"]) :=
  ⟨by decide, by decide,
   (C9_counts_completion_order_independent (fun ip => ip == "10.0.0.1") net1030
     ["10.0.0.1", "10.0.0.2"] ["10.0.0.2", "10.0.0.1"] (by decide) (by decide)).1⟩

/-- C1: behavior of the code at the failing input.  With the ping binary
missing, every invocation raises (`fileNotFound`); the `except Exception`
clause in the `as_completed` loop catches the resulting `RuntimeError` from
`future.result()` for every host, so sweeping `10.0.0.0/30` records each
host as down, and `main`'s `except RuntimeError` handler (the only path to
`sys.exit(1)`) is never reached: `main` completes with a summary of 0 up
out of 2 and success status — it does not abort. -/
theorem C1_missing_ping_marks_hosts_down :
    sweep_network (prober_of (fun _ => RunOutcome.fileNotFound) OS.unixLike 300)
        (hostStrings net1030) = [("10.0.0.1", false), ("10.0.0.2", false)] ∧
    main_run (prober_of (fun _ => RunOutcome.fileNotFound) OS.unixLike 300)
        (hostStrings net1030) = MainOutcome.completed 0 2 := by
  exact ⟨by decide, by decide⟩

/-- C4 counterexample: `ipaddress.ip_network("10.0.0.0/32").hosts()` yields
the single address `10.0.0.0` (the CPython /32 special case), not zero
usable hosts, so a completed sweep of `10.0.0.0/32` has `total = 1`, not
`total = 0`, and one probe is dispatched. -/
theorem C4_counterexample :
    hostStrings net1032 = ["10.0.0.0"] ∧
    total_count (sweep_network (fun _ => Except.ok false) (hostStrings net1032)) = 1 ∧
    total_count (sweep_network (fun _ => Except.ok false) (hostStrings net1032)) ≠ 0 := by
  exact ⟨by decide, by decide, by decide⟩

/-- C4 (amended): sweeping the network `10.0.0.0/32` yields exactly 1
usable host — the address `10.0.0.0` itself — so one probe task is
dispatched and, for every prober and completion order, the completed
sweep's result has `total = 1` with `upCount + downCount = 1`. -/
theorem C4_amended_slash32_single_host (prober : String → Except String Bool)
    (order : List String) (h : order.Perm (hostStrings net1032)) :
    hostStrings net1032 = ["10.0.0.0"] ∧
    total_count (sweep_network prober order) = 1 ∧
    up_count (sweep_network prober order) + down_count (sweep_network prober order) = 1 := by
  have hlen : order.length = 1 := by
    rw [h.length_eq]
    decide
  have htot : total_count (sweep_network prober order) = 1 := by
    unfold total_count sweep_network
    rw [List.length_map]
    exact hlen
  refine ⟨by decide, htot, ?_⟩
  have hsplit := up_down_split (sweep_network prober order)
  unfold total_count at htot
  unfold up_count down_count
  omega

theorem C4_witness :
    (["10.0.0.0"] : List String).Perm (hostStrings net1032) ∧
    total_count (sweep_network (fun _ => Except.ok true) ["10.0.0.0"]) = 1 :=
  ⟨by decide,
   (C4_amended_slash32_single_host (fun _ => Except.ok true) ["10.0.0.0"] (by decide)).2.1⟩

/-- C5: a per-task probe failure (the probe raising any exception, or
returning unreachable) is contained locally: the loop still records one
pair per completed future (none lost), `main` still completes normally
(no abort, nothing propagates to the caller), the failing address is
recorded as a down outcome, and every sibling record — any position whose
address differs from the failing one — is unaffected by what the probe
did at the failing address. -/
theorem C5_probe_failure_isolated (prober prober' : String → Except String Bool)
    (order : List String) (a e : String)
    (hfail : prober a = Except.error e)
    (hagree : ∀ ip, ip ≠ a → prober' ip = prober ip) :
    (sweep_network prober order).length = order.length ∧
    main_run prober order =
      MainOutcome.completed (up_count (sweep_network prober order))
        (total_count (sweep_network prober order)) ∧
    (a ∈ order → (a, false) ∈ sweep_network prober order) ∧
    ∀ i, (hi : i < order.length) → order[i] ≠ a →
      (sweep_network prober' order)[i]? = (sweep_network prober order)[i]? := by
  refine ⟨List.length_map _ _, rfl, ?_, ?_⟩
  · intro hmem
    have hrec : recordOf prober a = (a, false) := by
      unfold recordOf
      rw [hfail]
    have := List.mem_map_of_mem (recordOf prober) hmem
    rwa [hrec] at this
  · intro i hi hne
    unfold sweep_network
    rw [List.getElem?_map, List.getElem?_map, List.getElem?_eq_getElem hi]
    have hrec : recordOf prober' order[i] = recordOf prober order[i] := by
      unfold recordOf
      rw [hagree order[i] hne]
    rw [Option.map_some', Option.map_some', hrec]

theorem C5_witness :
    ((fun ip => if ip = "10.0.0.1" then Except.error "probe process failed"
        else Except.ok true) "10.0.0.1" : Except String Bool) =
      Except.error "probe process failed" ∧
    ("10.0.0.1", false) ∈ sweep_network
      (fun ip => if ip = "10.0.0.1" then Except.error "probe process failed"
        else Except.ok true) ["10.0.0.1", "10.0.0.2"] :=
  ⟨rfl,
   (C5_probe_failure_isolated
     (fun ip => if ip = "10.0.0.1" then Except.error "probe process failed"
       else Except.ok true)
     (fun ip => if ip = "10.0.0.1" then Except.error "probe process failed"
       else Except.ok true)
     ["10.0.0.1", "10.0.0.2"] "10.0.0.1" "probe process failed"
     rfl (fun _ _ => rfl)).2.2.1 (by decide)⟩

/-- C6: for every address and timeout, `ping_once` invokes the external
mechanism exactly once (its invocation trace is the single built command,
whose echo-count argument is "1": single echo, no retry), returns up
exactly when the mechanism exits with status zero, and returns down for
every nonzero exit status — including the status the mechanism itself
reports on timeout. -/
theorem ping_once_eq (run : List String → RunOutcome) (system : OS) (ip : String)
    (t : Int) :
    ping_once run system ip t =
      (match run (get_ping_command system ip t) with
       | .exited rc => (Except.ok (rc == 0), [get_ping_command system ip t])
       | .fileNotFound => (Except.error "ping command not found on this system",
           [get_ping_command system ip t])) := rfl

theorem C6_single_invocation_up_iff_zero (run : List String → RunOutcome)
    (system : OS) (ip : String) (t : Int) :
    (ping_once run system ip t).2 = [get_ping_command system ip t] ∧
    (get_ping_command system ip t)[2]? = some "1" ∧
    (∀ rc, run (get_ping_command system ip t) = RunOutcome.exited rc →
      (ping_once run system ip t).1 = Except.ok (rc == 0)) ∧
    ((ping_once run system ip t).1 = Except.ok true ↔
      run (get_ping_command system ip t) = RunOutcome.exited 0) := by
  simp only [ping_once_eq]
  cases hrc : run (get_ping_command system ip t) with
  | exited rc =>
    refine ⟨rfl, ?_, ?_, ?_⟩
    · cases system <;> rfl
    · intro rc' hrc'
      cases hrc'
      rfl
    · simp only [Except.ok.injEq, beq_iff_eq, RunOutcome.exited.injEq]
  | fileNotFound =>
    refine ⟨rfl, ?_, ?_, ?_⟩
    · cases system <;> rfl
    · intro rc' hrc'
      cases hrc'
    · simp

theorem C6_witness :
    (ping_once (fun _ => RunOutcome.exited 0) OS.unixLike "10.0.0.1" 300).1 =
      Except.ok true :=
  (C6_single_invocation_up_iff_zero (fun _ => RunOutcome.exited 0) OS.unixLike
    "10.0.0.1" 300).2.2.2.mpr rfl

/-- The timeout argument of the built ping command (position 4, after
`-w` / `-W`) is the rendered `timeoutValue`. -/
theorem get_ping_command_timeout_arg (system : OS) (ip : String) (t : Int) :
    (get_ping_command system ip t)[4]? = some (toString (timeoutValue system t)) := by
  cases system <;> rfl

/-- C7: a requested per-probe timeout of zero or a negative value is
clamped by `main` to the minimum allowed positive duration 1, and the
timeout value embedded in the ping command built from the clamped timeout
is positive on either OS — no zero or negative timeout reaches the probing
mechanism. -/
theorem C7_nonpositive_timeout_clamped (system : OS) (ip : String) (t : Int)
    (h : t ≤ 0) :
    clampPos t = 1 ∧
    0 < timeoutValue system (clampPos t) ∧
    (get_ping_command system ip (clampPos t))[4]? =
      some (toString (timeoutValue system (clampPos t))) := by
  have h1 : clampPos t = 1 := max_eq_left (by omega)
  refine ⟨h1, ?_, get_ping_command_timeout_arg system ip (clampPos t)⟩
  rw [h1]
  cases system <;> decide

theorem C7_witness :
    clampPos (-5) = 1 ∧ 0 < timeoutValue OS.unixLike (clampPos (-5)) :=
  ⟨(C7_nonpositive_timeout_clamped OS.unixLike "10.0.0.1" (-5) (by decide)).1,
   (C7_nonpositive_timeout_clamped OS.unixLike "10.0.0.1" (-5) (by decide)).2.1⟩

/-- On a positive divisor, Python's floor division `(t + 999) // 1000`
computes the ceiling of `t / 1000`. -/
theorem fdiv_add_999_eq_ceil (t : Int) :
    (t + 999).fdiv 1000 = ⌈(t : ℚ) / 1000⌉ := by
  rw [Int.fdiv_eq_ediv _ (by decide)]
  have hq := Int.ediv_add_emod (t + 999) 1000
  have hr0 : 0 ≤ (t + 999) % 1000 := Int.emod_nonneg _ (by decide)
  have hr1 : (t + 999) % 1000 < 1000 := Int.emod_lt_of_pos _ (by decide)
  rw [eq_comm, Int.ceil_eq_iff]
  constructor
  · rw [lt_div_iff₀ (by norm_num : (0 : ℚ) < 1000)]
    have h2 : 1000 * ((t + 999) / 1000) - 1000 < t := by omega
    have h2' : (1000 : ℚ) * (((t + 999) / 1000 : ℤ) : ℚ) - 1000 < (t : ℚ) := by
      exact_mod_cast h2
    linarith
  · rw [div_le_iff₀ (by norm_num : (0 : ℚ) < 1000)]
    have h3 : t ≤ 1000 * ((t + 999) / 1000) := by omega
    have h3' : (t : ℚ) ≤ (1000 : ℚ) * (((t + 999) / 1000 : ℤ) : ℚ) := by
      exact_mod_cast h3
    linarith

/-- C10: on non-Windows systems the millisecond timeout is converted to
whole seconds as the ceiling of `timeout_ms / 1000` with a minimum of 1
second, so every requested timeout of 1000 ms or less is passed to the
probing mechanism as exactly 1 second. -/
theorem C10_unix_seconds_is_clamped_ceiling (t : Int) :
    timeoutValue OS.unixLike t = max 1 ⌈(t : ℚ) / 1000⌉ ∧
    (t ≤ 1000 → timeoutValue OS.unixLike t = 1) := by
  constructor
  · unfold timeoutValue
    rw [fdiv_add_999_eq_ceil]
  · intro hle
    unfold timeoutValue
    rw [Int.fdiv_eq_ediv _ (by decide)]
    have hq := Int.ediv_add_emod (t + 999) 1000
    have hr0 : 0 ≤ (t + 999) % 1000 := Int.emod_nonneg _ (by decide)
    have hr1 : (t + 999) % 1000 < 1000 := Int.emod_lt_of_pos _ (by decide)
    have : (t + 999) / 1000 ≤ 1 := by omega
    exact max_eq_left this

theorem C10_witness :
    timeoutValue OS.unixLike 300 = 1 :=
  (C10_unix_seconds_is_clamped_ceiling 300).2 (by decide)

end PingSweep
